import Mathlib

/-
Shallow embedding of leptos/src/children.rs.

The file defines the children wrapper types of the leptos component
framework: type aliases over boxed or shared closures returning an erased
view, a conversion trait ToChildren normalizing closures into those
wrappers, the ViewFn default-able view factory, and the TypedChildren
holder. Rust closures are embedded as Lean functions; an FnMut closure is
embedded as an explicit state machine so that mutation of captured state
is observable; the external erased view type AnyView and the typed View
are modelled abstractly as payload wrappers.
-/

namespace Leptos

/-- Modelled from the spec: the erased view type AnyView from the external
tachys crate (not under src) is a type-erased renderable value usable
without knowing the producing type; we model it as a dependent pair of the
concrete type and its payload. -/
def AnyView : Type 1 := Σ C : Type, C

/-- Modelled from the spec: the renderable capability coercion into_any
from the external tachys crate erases a concrete renderable value into an
AnyView, preserving the value. -/
def IntoAny.into_any {C : Type} (c : C) : AnyView := ⟨C, c⟩

/-- Modelled from the spec: the typed View wrapper of this repository
(crate into_view, not under src) preserves the concrete type of the
rendered value. -/
structure View (T : Type) : Type where
  inner : T

/-- Modelled from the spec: the coercion into_view of this repository
(crate into_view, not under src) wraps a renderable value into its typed
View, preserving the value. -/
def IntoView.into_view {C : Type} (c : C) : View C := ⟨c⟩

/-- Embedding of the Rust alias Children for Box of dyn FnOnce returning
AnyView: a zero-argument closure producing an erased view. The call-once
discipline of FnOnce is recorded separately in callKind. -/
def Children : Type 1 := Unit → AnyView

/-- Embedding of the Rust alias ChildrenFn for Arc of dyn Fn returning
AnyView: a repeatable zero-argument closure producing an erased view. -/
def ChildrenFn : Type 1 := Unit → AnyView

/-- Embedding of the Rust alias BoxedChildrenFn for Box of dyn Fn
returning AnyView. -/
def BoxedChildrenFn : Type 1 := Unit → AnyView

/-- An FnMut closure embedded as a state machine: a hidden state type, a
current captured state, and a call function that returns a value and the
mutated state. A Rust Fn closure is the degenerate case whose call leaves
the state unchanged. -/
structure FnMutClosure (A : Type 1) : Type 2 where
  S : Type
  state : S
  call : S → A × S

/-- Embedding of the Rust alias ChildrenFnMut for Box of dyn FnMut
returning AnyView: a repeatable closure that may mutate its captured
state on each call. -/
def ChildrenFnMut : Type 2 := FnMutClosure AnyView

/-- Invoking a stateful closure n times from a given state, threading the
mutated state through and collecting the produced values in order. -/
def traceAux {A : Type 1} {S : Type} (call : S → A × S) : S → Nat → List A
  | _, 0 => []
  | s, n + 1 => (call s).1 :: traceAux call (call s).2 n

/-- The list of values produced by the first n invocations of an FnMut
closure, starting from its current captured state. -/
def FnMutClosure.trace {A : Type 1} (w : FnMutClosure A) (n : Nat) : List A :=
  traceAux w.call w.state n

/-- Invoking a pure (Fn) closure n times and collecting the produced
values: each invocation re-runs the closure independently. -/
def callTimes {A : Type 1} (g : Unit → A) : Nat → List A
  | 0 => []
  | n + 1 => g () :: callTimes g n

/-- Embedding of impl ToChildren for Children (children.rs lines 114 to
123): given an FnOnce closure f returning a renderable C, produce the
boxed closure that invokes f and erases the result. -/
def Children.to_children {C : Type} (f : Unit → C) : Children :=
  fun _ => IntoAny.into_any (f ())

/-- Embedding of impl ToChildren for ChildrenFn (children.rs lines 125 to
134): given an Fn closure f returning a renderable C, produce the shared
closure that invokes f and erases the result. -/
def ChildrenFn.to_children {C : Type} (f : Unit → C) : ChildrenFn :=
  fun _ => IntoAny.into_any (f ())

/-- Embedding of impl ToChildren for ChildrenFnMut (children.rs lines 136
to 145): the Rust bound on the input is F : Fn, a pure closure, so the
produced FnMut trait object captures no mutable state; its call returns
the erased result of f and leaves the (unit) state unchanged. -/
def ChildrenFnMut.to_children {C : Type} (f : Unit → C) : ChildrenFnMut :=
  ⟨Unit, (), fun s => (IntoAny.into_any (f ()), s)⟩

/-- Embedding of impl ToChildren for BoxedChildrenFn (children.rs lines
147 to 156): given an Fn closure f returning a renderable C, produce the
boxed closure that invokes f and erases the result. -/
def BoxedChildrenFn.to_children {C : Type} (f : Unit → C) : BoxedChildrenFn :=
  fun _ => IntoAny.into_any (f ())

/-- Embedding of the TypedChildren struct (children.rs line 188): a boxed
FnOnce closure returning a typed View. -/
structure TypedChildren (T : Type) : Type where
  inner : Unit → View T

/-- Embedding of impl ToChildren for TypedChildren (children.rs lines 103
to 112): given an FnOnce closure f returning C with C renderable, store
the closure that invokes f and wraps the result as a typed view. -/
def TypedChildren.to_children {C : Type} (f : Unit → C) : TypedChildren C :=
  ⟨fun _ => IntoView.into_view (f ())⟩

/-- Embedding of TypedChildren::into_inner (children.rs lines 190 to
194): return the stored closure. -/
def TypedChildren.into_inner {T : Type} (tc : TypedChildren T) : Unit → View T :=
  tc.inner

/-- Embedding of the ViewFn newtype (children.rs line 161): a shared (Arc)
closure returning an erased view. -/
structure ViewFn : Type 1 where
  inner : Unit → AnyView

/-- Embedding of impl Default for ViewFn (children.rs lines 163 to 167):
the default factory wraps the closure that erases the unit value. -/
def ViewFn.default : ViewFn :=
  ⟨fun _ => IntoAny.into_any ()⟩

/-- Embedding of impl From of F for ViewFn (children.rs lines 169 to
177): given an Fn closure returning a renderable C, wrap the closure that
invokes it and erases the result. The Rust name is From::from. -/
def ViewFn.fromClosure {C : Type} (value : Unit → C) : ViewFn :=
  ⟨fun _ => IntoAny.into_any (value ())⟩

/-- Embedding of ViewFn::run (children.rs lines 179 to 184): invoke the
wrapped closure through a shared reference. -/
def ViewFn.run (v : ViewFn) : AnyView :=
  v.inner ()

/-- Embedding of the derived Clone for ViewFn (children.rs line 160): the
clone shares the same Arc closure. -/
def ViewFn.clone (v : ViewFn) : ViewFn :=
  ⟨v.inner⟩

/-- The ownership container of each children alias, read off the Rust
type aliases (children.rs lines 13, 17, 21, 24). -/
inductive Container : Type where
  | boxed
  | arc

/-- The closure trait of each children alias, read off the Rust type
aliases (children.rs lines 13, 17, 21, 24). -/
inductive CallKind : Type where
  | fnOnce
  | fn
  | fnMut

/-- The four erased children wrapper kinds defined in children.rs. -/
inductive ChildrenKind : Type where
  | children
  | childrenFn
  | childrenFnMut
  | boxedChildrenFn

/-- Container of each alias: Children is Box, ChildrenFn is Arc,
ChildrenFnMut is Box, BoxedChildrenFn is Box (children.rs lines 13, 17,
21, 24). -/
def container : ChildrenKind → Container
  | .children => .boxed
  | .childrenFn => .arc
  | .childrenFnMut => .boxed
  | .boxedChildrenFn => .boxed

/-- Closure trait of each alias: Children is FnOnce, ChildrenFn is Fn,
ChildrenFnMut is FnMut, BoxedChildrenFn is Fn (children.rs lines 13, 17,
21, 24). -/
def callKind : ChildrenKind → CallKind
  | .children => .fnOnce
  | .childrenFn => .fn
  | .childrenFnMut => .fnMut
  | .boxedChildrenFn => .fn

/-- A wrapper kind is repeatable when its closure trait permits more than
one invocation, i.e. it is not FnOnce. -/
def repeatable (k : ChildrenKind) : Bool :=
  match callKind k with
  | .fnOnce => false
  | .fn => true
  | .fnMut => true

/-- A wrapper kind has shared (reference-counted) ownership exactly when
its container is Arc. -/
def sharedOwnership (k : ChildrenKind) : Bool :=
  match container k with
  | .arc => true
  | .boxed => false

/-- A concrete genuinely mutating FnMut closure: a counter that returns
its erased current count and increments it on every call. Used to probe
whether the ChildrenFnMut conversion can accept mutating closures. -/
def counterClosure : ChildrenFnMut :=
  ⟨Nat, 0, fun n => (IntoAny.into_any n, n + 1)⟩

theorem traceAux_const {A : Type 1} {S : Type} (a : A) (s : S) (n : Nat) :
    traceAux (fun t => (a, t)) s n = List.replicate n a := by
  induction n generalizing s with
  | zero => rfl
  | succ n ih => simpa [traceAux, List.replicate] using ih s

theorem callTimes_eq_replicate {A : Type 1} (g : Unit → A) (n : Nat) :
    callTimes g n = List.replicate n (g ()) := by
  induction n with
  | zero => rfl
  | succ n ih => simp [callTimes, List.replicate, ih]

/-- C1: adapter transparency. For every zero-argument closure f returning
a renderable value, converting f into any of the five wrapper kinds via
to_children and then invoking the resulting wrapper yields exactly the
result of invoking f directly and coercing it: into_any of f () for
Children, ChildrenFn, ChildrenFnMut and BoxedChildrenFn, and into_view of
f () for TypedChildren. -/
theorem to_children_transparent (C : Type) (f : Unit → C) :
    Children.to_children f () = IntoAny.into_any (f ())
      ∧ ChildrenFn.to_children f () = IntoAny.into_any (f ())
      ∧ ((ChildrenFnMut.to_children f).call (ChildrenFnMut.to_children f).state).1
          = IntoAny.into_any (f ())
      ∧ BoxedChildrenFn.to_children f () = IntoAny.into_any (f ())
      ∧ (TypedChildren.to_children f).inner () = IntoView.into_view (f ()) :=
  ⟨rfl, rfl, rfl, rfl, rfl⟩

/-- C2 counterexample: the claim that the ChildrenFnMut conversion
accepts any FnMut closure (one that may mutate its captured state on each
call) is false. The conversion in the code bounds its input by Fn, a pure
closure, so no wrapper it produces can reproduce the behaviour of the
concrete mutating counter closure: already the first two invocations of
the counter yield distinct views, while every wrapper produced by
to_children yields the same view on every invocation. -/
theorem childrenFnMut_to_children_rejects_mutating_closure :
    ¬ ∃ (C : Type) (f : Unit → C), ∀ n : Nat,
        FnMutClosure.trace (ChildrenFnMut.to_children f) n
          = FnMutClosure.trace counterClosure n := by
  rintro ⟨C, f, h⟩
  have h2 : ([IntoAny.into_any (f ()), IntoAny.into_any (f ())] : List AnyView)
      = [IntoAny.into_any (0 : Nat), IntoAny.into_any (1 : Nat)] := h 2
  injection h2 with ha hb
  injection hb with hb _
  have hc : IntoAny.into_any (0 : Nat) = IntoAny.into_any (1 : Nat) :=
    ha.symm.trans hb
  simp [IntoAny.into_any] at hc
  obtain ⟨-, hd⟩ := Sigma.mk.inj_iff.mp hc
  exact absurd (eq_of_heq hd) (by decide)

/-- C2 amended: the ChildrenFnMut conversion accepts any zero-argument Fn
closure (a pure closure forbidden from mutating captured state) producing
a renderable value, and wraps it as a repeatable, mutably-typed children
container whose invocations never actually mutate state: each call leaves
the captured state unchanged and every one of the first n invocations
yields into_any of f (). -/
theorem childrenFnMut_to_children_pure_repeatable (C : Type) (f : Unit → C)
    (s : Unit) (n : Nat) :
    (ChildrenFnMut.to_children f).call s = (IntoAny.into_any (f ()), s)
      ∧ FnMutClosure.trace (ChildrenFnMut.to_children f) n
          = List.replicate n (IntoAny.into_any (f ())) :=
  ⟨rfl, traceAux_const (IntoAny.into_any (f ())) () n⟩

/-- C3: the default single-shot view factory. ViewFn.default, run without
a closure having been set, produces the erased view of the unit value,
into_any of (). -/
theorem viewFn_default_run_empty :
    ViewFn.default.run = IntoAny.into_any () :=
  rfl

/-- C4: repeatable wrappers re-run the closure on every invocation. For
every closure f converted into ChildrenFn or ChildrenFnMut and every
number n of invocations, each of the n invocations independently produces
into_any of f (); no invocation consumes the wrapper or caches a previous
result, since the whole trace is the n-fold repetition of the freshly
computed view. -/
theorem repeatable_wrappers_rerun_closure (C : Type) (f : Unit → C) (n : Nat) :
    callTimes (ChildrenFn.to_children f) n
        = List.replicate n (IntoAny.into_any (f ()))
      ∧ FnMutClosure.trace (ChildrenFnMut.to_children f) n
          = List.replicate n (IntoAny.into_any (f ())) :=
  ⟨callTimes_eq_replicate (ChildrenFn.to_children f) n,
    traceAux_const (IntoAny.into_any (f ())) () n⟩

/-- C5: the call-once wrapper. Children is the FnOnce kind, so its
contained closure is invocable at most once by typing (invocation
consumes the box), and that single invocation yields exactly the view the
original closure would produce, into_any of f (). -/
theorem children_call_once_result (C : Type) (f : Unit → C) :
    callKind ChildrenKind.children = CallKind.fnOnce
      ∧ Children.to_children f () = IntoAny.into_any (f ()) :=
  ⟨rfl, rfl⟩

/-- C6: totality. Every public operation of the module (the five
to_children conversions, the From conversion for ViewFn, ViewFn.default,
ViewFn.run and TypedChildren.into_inner) is a total function over
well-typed inputs: on every input it equals an explicitly constructed
value, with no error value, panic, or unreachable failure branch. -/
theorem public_ops_total (C T : Type) (f : Unit → C) (g : Unit → View T) :
    Children.to_children f = (fun _ => IntoAny.into_any (f ()))
      ∧ ChildrenFn.to_children f = (fun _ => IntoAny.into_any (f ()))
      ∧ (ChildrenFnMut.to_children f).call = (fun s => (IntoAny.into_any (f ()), s))
      ∧ BoxedChildrenFn.to_children f = (fun _ => IntoAny.into_any (f ()))
      ∧ (TypedChildren.to_children f).inner = (fun _ => IntoView.into_view (f ()))
      ∧ (ViewFn.fromClosure f).run = IntoAny.into_any (f ())
      ∧ ViewFn.default.run = IntoAny.into_any ()
      ∧ (TypedChildren.mk g).into_inner = g :=
  ⟨rfl, rfl, rfl, rfl, rfl, rfl, rfl, rfl⟩

/-- C7 counterexample: the claim that every repeatable wrapper kind has
reference-counting shared-ownership semantics is false on the code:
ChildrenFnMut is repeatable yet its alias is a Box, an exclusively owned
container, not an Arc (and likewise BoxedChildrenFn). -/
theorem repeatable_not_all_shared :
    repeatable ChildrenKind.childrenFnMut = true
      ∧ sharedOwnership ChildrenKind.childrenFnMut = false
      ∧ sharedOwnership ChildrenKind.boxedChildrenFn = false := by
  decide

/-- C7 amended: among the wrapper kinds, exactly ChildrenFn has
reference-counting shared-ownership semantics (its container is Arc); the
other repeatable kinds ChildrenFnMut and BoxedChildrenFn are Box-based
with exclusive ownership; a kind is repeatable exactly when it is not the
call-once kind Children, which has single-ownership, single-invocation
(FnOnce) semantics; and the shared kind is a pure Fn, so its invocation
mutates no state. -/
theorem ownership_of_children_kinds (k : ChildrenKind) :
    (sharedOwnership k = true ↔ k = ChildrenKind.childrenFn)
      ∧ (repeatable k = true ↔ k ≠ ChildrenKind.children)
      ∧ (sharedOwnership k = true → callKind k = CallKind.fn) := by
  cases k <;> simp [sharedOwnership, repeatable, callKind, container]

/-- C8: ViewFn conversion and run. For every closure f, running the
ViewFn obtained from f yields into_any of f (); run takes the ViewFn by
shared reference, so the same value can be run any number of times, each
run re-invoking f; and running a clone (which shares the Arc closure) is
observationally equivalent to running the original. -/
theorem viewFn_from_run_clone (C : Type) (f : Unit → C) (n : Nat) :
    (ViewFn.fromClosure f).run = IntoAny.into_any (f ())
      ∧ callTimes (fun _ => (ViewFn.fromClosure f).run) n
          = List.replicate n (IntoAny.into_any (f ()))
      ∧ (ViewFn.fromClosure f).clone.run = (ViewFn.fromClosure f).run :=
  ⟨rfl, callTimes_eq_replicate (fun _ => (ViewFn.fromClosure f).run) n, rfl⟩

/-- C9: the four erased wrapper kinds are behaviorally equivalent
adapters. For every closure f, the wrappers produced by to_children as
Children, ChildrenFn, ChildrenFnMut and BoxedChildrenFn all compute the
same view on (first) invocation, namely into_any of f (); they differ
only in container and callability. -/
theorem erased_wrappers_equivalent (C : Type) (f : Unit → C) :
    Children.to_children f () = ChildrenFn.to_children f ()
      ∧ ChildrenFn.to_children f () = BoxedChildrenFn.to_children f ()
      ∧ BoxedChildrenFn.to_children f ()
          = ((ChildrenFnMut.to_children f).call (ChildrenFnMut.to_children f).state).1
      ∧ Children.to_children f () = IntoAny.into_any (f ()) :=
  ⟨rfl, rfl, rfl, rfl⟩

/-- C10: round-trip through TypedChildren. For every closure f, the
closure exposed by into_inner after to_children yields exactly into_view
of f () when invoked; and into_inner returns precisely the closure stored
at construction, with no other effect. -/
theorem typedChildren_roundtrip (C T : Type) (f : Unit → C) (g : Unit → View T) :
    (TypedChildren.to_children f).into_inner () = IntoView.into_view (f ())
      ∧ (TypedChildren.mk g).into_inner = g :=
  ⟨rfl, rfl⟩

end Leptos
